import Mathlib

/-!
# api-backend: radar handlers over an explicit database state

Shallow embedding of `internal/models/user.go`, `internal/database/migrations.go`,
`internal/handlers/radar.go` and the part of `internal/handlers/user.go` that changes
the tables the radar handlers read.

Conventions of the embedding

* A Go `float64` that was decoded from a request is a rational number (`ℚ`): every
  finite float is one, and the range checks of the binding tags are exact comparisons.
  Arithmetic on them (`$3 * 1000`, `ST_Distance(..) / 1000`) is exact, so nothing here
  speaks about the rounding of these two operations.
* The database is a value of type `Database` (the two tables of the migration and their
  `SERIAL` sequences); a handler is a function from the state before the request to the
  response and the state after it.
* `CURRENT_TIMESTAMP` is the argument `now`.
* PostGIS is outside the repository: `ST_Distance` on geography values is an argument
  `dist` (meters), and `ST_DWithin a b t` is `dist a b ≤ t`.
* Errors of the storage layer are decided by a `Faults` value that says which database
  call of the request fails.
-/

namespace ApiBackend

/-! ## net/http status codes -/

abbrev StatusOK : Nat := 200
abbrev StatusCreated : Nat := 201
abbrev StatusBadRequest : Nat := 400
abbrev StatusNotFound : Nat := 404
abbrev StatusInternalServerError : Nat := 500

/-! ## Binding and validation (gin `ShouldBindJSON` / `ShouldBindQuery`) -/

/-- One field of a request as it arrives: not there (or JSON `null`, or an empty query
value), there but not of the type of the struct field, or a value of that type. -/
inductive Field (α : Type) where
  | absent
  | malformed
  | value (a : α)
deriving DecidableEq

/-- Decoding leaves the zero value of the Go type in a field that is absent and fails on a
field of the wrong type. -/
def Field.decode {α : Type} (zero : α) : Field α → Option α
  | .absent => some zero
  | .malformed => none
  | .value a => some a

/-- A pointer field (`*bool`) stays `nil` when absent. -/
def Field.decodePtr {α : Type} : Field α → Option (Option α)
  | .absent => some none
  | .malformed => none
  | .value a => some (some a)

/-- The binding tags used on numeric fields in `models/user.go`. -/
inductive Tag where
  | required
  | min (p : ℚ)
  | max (p : ℚ)
deriving DecidableEq

def Tag.name : Tag → String
  | .required => "required"
  | .min _ => "min"
  | .max _ => "max"

/-- What the validator checks for a tag on a number: `required` holds when the field is not
the zero value of its type, `min=p` when `p ≤ v`, `max=p` when `v ≤ p`. -/
def Tag.holds (t : Tag) (v : ℚ) : Bool :=
  match t with
  | .required => decide (v ≠ 0)
  | .min p => decide (p ≤ v)
  | .max p => decide (v ≤ p)

structure FieldError where
  field : String
  tag : String
deriving DecidableEq

/-- The tags of a field are tried in the order written; the first one that fails is
reported for the field. -/
def checkField (field : String) (tags : List Tag) (v : ℚ) : List FieldError :=
  match tags.find? (fun t => !t.holds v) with
  | some t => [⟨field, t.name⟩]
  | none => []

inductive BindError where
  | decode
  | validation (errs : List FieldError)
deriving DecidableEq

/-- The body of an error answer, `gin.H{"error": ...}`. -/
inductive ErrorBody where
  | bind (e : BindError)
  | message (msg : String)
deriving DecidableEq

/-- What a handler writes with `c.JSON`. -/
inductive Response (α : Type) where
  | json (code : Nat) (body : α)
  | error (code : Nat) (body : ErrorBody)
deriving DecidableEq

def Response.code {α : Type} : Response α → Nat
  | .json c _ => c
  | .error c _ => c

/-! ## models/user.go -/

structure User where
  ID : Int
  Email : String
  CreatedAt : Nat
  UpdatedAt : Nat
deriving DecidableEq

structure UserRadar where
  ID : Int
  UserID : Int
  Latitude : ℚ
  Longitude : ℚ
  IsActive : Bool
  CreatedAt : Nat
  UpdatedAt : Nat
deriving DecidableEq

structure UpdateLocationRequest where
  UserID : Int
  Latitude : ℚ
  Longitude : ℚ
  IsActive : Option Bool
deriving DecidableEq

structure NearbyUsersRequest where
  Latitude : ℚ
  Longitude : ℚ
  Radius : ℚ
deriving DecidableEq

structure NearbyUser where
  UserID : Int
  Email : String
  Latitude : ℚ
  Longitude : ℚ
  DistanceKm : ℚ
  LastUpdateAt : Nat
deriving DecidableEq

/-- The JSON body of `POST /radar/location`, field by field. -/
structure UpdateLocationJSON where
  user_id : Field Int
  latitude : Field ℚ
  longitude : Field ℚ
  is_active : Field Bool
deriving DecidableEq

/-- The query string of `GET /radar/nearby`, parameter by parameter. -/
structure NearbyUsersQuery where
  latitude : Field ℚ
  longitude : Field ℚ
  radius : Field ℚ
deriving DecidableEq

/-- The tags `binding:"required"`, `binding:"required,min=-90,max=90"`,
`binding:"required,min=-180,max=180"` of `UpdateLocationRequest`. -/
def UpdateLocationRequest.validate (req : UpdateLocationRequest) : List FieldError :=
  checkField "UserID" [.required] (req.UserID : ℚ)
    ++ checkField "Latitude" [.required, .min (-90), .max 90] req.Latitude
    ++ checkField "Longitude" [.required, .min (-180), .max 180] req.Longitude

/-- The tags `binding:"required,min=-90,max=90"`, `binding:"required,min=-180,max=180"`,
`binding:"required,min=0"` of `NearbyUsersRequest`. -/
def NearbyUsersRequest.validate (req : NearbyUsersRequest) : List FieldError :=
  checkField "Latitude" [.required, .min (-90), .max 90] req.Latitude
    ++ checkField "Longitude" [.required, .min (-180), .max 180] req.Longitude
    ++ checkField "Radius" [.required, .min 0] req.Radius

/-- The call `c.ShouldBindJSON(&req)` for `UpdateLocationRequest`: decode, then validate. -/
def ShouldBindJSON (body : UpdateLocationJSON) : Except BindError UpdateLocationRequest :=
  match body.user_id.decode 0, body.latitude.decode 0, body.longitude.decode 0,
      body.is_active.decodePtr with
  | some uid, some lat, some lon, some act =>
    let req : UpdateLocationRequest := ⟨uid, lat, lon, act⟩
    if req.validate = [] then .ok req else .error (.validation req.validate)
  | _, _, _, _ => .error .decode

/-- The call `c.ShouldBindQuery(&req)` for `NearbyUsersRequest`: decode, then validate. -/
def ShouldBindQuery (q : NearbyUsersQuery) : Except BindError NearbyUsersRequest :=
  match q.latitude.decode 0, q.longitude.decode 0, q.radius.decode 0 with
  | some lat, some lon, some r =>
    let req : NearbyUsersRequest := ⟨lat, lon, r⟩
    if req.validate = [] then .ok req else .error (.validation req.validate)
  | _, _, _ => .error .decode

/-! ## database/migrations.go: the two tables -/

/-- A PostGIS point, `ST_MakePoint(x, y)`: x is the longitude, y the latitude. -/
structure Point where
  x : ℚ
  y : ℚ
deriving DecidableEq

def ST_MakePoint (x y : ℚ) : Point := ⟨x, y⟩

def ST_X (p : Point) : ℚ := p.x

def ST_Y (p : Point) : ℚ := p.y

/-- The predicate `ST_DWithin(a, b, t)` on geography values, read as its documentation
states it: the distance is at most `t` meters. PostGIS computes it in a function of its
own; that the two functions agree is taken from that documentation, not from the
source. -/
def ST_DWithin (dist : Point → Point → ℚ) (a b : Point) (t : ℚ) : Bool :=
  decide (dist a b ≤ t)

/-- A row of `users`. -/
structure UserRow where
  id : Int
  email : String
  created_at : Nat
  updated_at : Nat
deriving DecidableEq

/-- A row of `user_radar`. -/
structure RadarRow where
  id : Int
  user_id : Int
  location : Point
  is_active : Bool
  created_at : Nat
  updated_at : Nat
deriving DecidableEq

/-- The state of the database: both tables and the last value of each `SERIAL` sequence. -/
structure Database where
  users : List UserRow
  user_radar : List RadarRow
  users_id_seq : Nat
  user_radar_id_seq : Nat
deriving DecidableEq

/-- The database right after `RunMigrations` on a fresh server. -/
def Database.empty : Database := ⟨[], [], 0, 0⟩

/-- Which database calls of a request fail. -/
structure Faults where
  /-- The `SELECT EXISTS` of `UpdateLocation` -/
  verifyUser : Bool
  /-- The `INSERT ... ON CONFLICT` of `UpdateLocation` -/
  upsert : Bool
  /-- The `SELECT` of `GetNearbyUsers` -/
  query : Bool
  /-- The index of the row on which `rows.Scan` fails -/
  scanAt : Option Nat
  /-- The index of the row before which `rows.Next` stops on an error -/
  nextAt : Option Nat
  /-- The `INSERT INTO users` of `Create` -/
  insertUser : Bool
  /-- The `DELETE FROM users` of `Delete` -/
  deleteUser : Bool
deriving DecidableEq

/-- A storage layer on which every call works. -/
def Faults.none : Faults := ⟨false, false, false, Option.none, Option.none, false, false⟩

/-- The query `SELECT EXISTS(SELECT 1 FROM users WHERE id = $1)`. -/
def userExists (db : Database) (id : Int) : Bool :=
  db.users.any (fun u => u.id == id)

/-- The `DO UPDATE SET` of the upsert on one row. -/
def RadarRow.set (r : RadarRow) (x y : ℚ) (is_active : Bool) (now : Nat) : RadarRow :=
  { r with location := ST_MakePoint x y, is_active := is_active, updated_at := now }

/-- The statement
`INSERT INTO user_radar (user_id, location, is_active, updated_at)
 VALUES ($1, ST_MakePoint($2, $3), $4, CURRENT_TIMESTAMP)
 ON CONFLICT (user_id) DO UPDATE SET location = .., is_active = $4, updated_at = ..
 RETURNING ..`
on the table of the migration: the row returned (none when the statement fails, which
here is the foreign key `user_id REFERENCES users(id)` or the primary key `id`) and the
state after it. The `SERIAL` default of `id` takes a value of the sequence in every
case. -/
def upsertUserRadar (now : Nat) (db : Database) (user_id : Int) (x y : ℚ)
    (is_active : Bool) : Option RadarRow × Database :=
  let id : Int := db.user_radar_id_seq + 1
  match db.user_radar.find? (fun r => r.user_id == user_id) with
  | some old =>
    (some (old.set x y is_active now),
      { db with
        user_radar := db.user_radar.map
          (fun r => if r.user_id == user_id then r.set x y is_active now else r)
        user_radar_id_seq := db.user_radar_id_seq + 1 })
  | Option.none =>
    if userExists db user_id ∧ db.user_radar.all (fun r => r.id != id) then
      let row : RadarRow := ⟨id, user_id, ST_MakePoint x y, is_active, now, now⟩
      (some row,
        { db with
          user_radar := db.user_radar ++ [row]
          user_radar_id_seq := db.user_radar_id_seq + 1 })
    else
      (Option.none, { db with user_radar_id_seq := db.user_radar_id_seq + 1 })

/-- The `RETURNING` list of the upsert scanned into a `models.UserRadar`:
latitude is `ST_Y`, longitude is `ST_X`. -/
def RadarRow.toUserRadar (r : RadarRow) : UserRadar :=
  ⟨r.id, r.user_id, ST_Y r.location, ST_X r.location, r.is_active, r.created_at,
    r.updated_at⟩

/-! ## handlers/radar.go -/

/-- The handler `RadarHandler.UpdateLocation`: the answer and the database after the
request. -/
def UpdateLocation (f : Faults) (now : Nat) (db : Database) (body : UpdateLocationJSON) :
    Response UserRadar × Database :=
  match ShouldBindJSON body with
  | .error e => (.error StatusBadRequest (.bind e), db)
  | .ok req =>
    if f.verifyUser then
      (.error StatusInternalServerError (.message "failed to verify user"), db)
    else if !userExists db req.UserID then
      (.error StatusNotFound (.message "user not found"), db)
    else
      let isActive := match req.IsActive with
        | some b => b
        | Option.none => true
      if f.upsert then
        (.error StatusInternalServerError (.message "failed to update location"), db)
      else
        match upsertUserRadar now db req.UserID req.Longitude req.Latitude isActive with
        | (some row, db1) => (.json StatusOK row.toUserRadar, db1)
        | (Option.none, db1) =>
          (.error StatusInternalServerError (.message "failed to update location"), db1)

/-- The clause `FROM user_radar ur JOIN users u ON ur.user_id = u.id`. -/
def radarJoinUsers (db : Database) : List (RadarRow × UserRow) :=
  db.user_radar.flatMap (fun ur =>
    (db.users.filter (fun u => ur.user_id == u.id)).map (fun u => (ur, u)))

/-- The clause `WHERE ur.is_active = true AND ST_DWithin(ur.location, center, $3 * 1000)`.
The product is exact here; the database rounds it to a float8. -/
def nearbyWhere (dist : Point → Point → ℚ) (center : Point) (radius : ℚ)
    (p : RadarRow × UserRow) : Bool :=
  p.1.is_active == true && ST_DWithin dist p.1.location center (radius * 1000)

/-- The select list: `ur.user_id, u.email, ST_Y(ur.location) as latitude,
ST_X(ur.location) as longitude, ST_Distance(ur.location, center) / 1000 as distance_km,
ur.updated_at`. The quotient is exact here; the database rounds it to a float8. -/
def nearbySelect (dist : Point → Point → ℚ) (center : Point) (p : RadarRow × UserRow) :
    NearbyUser :=
  ⟨p.1.user_id, p.2.email, ST_Y p.1.location, ST_X p.1.location,
    dist p.1.location center / 1000, p.1.updated_at⟩

/-- The `SELECT` of `GetNearbyUsers` with `$1 = x` (longitude), `$2 = y` (latitude) and
`$3 = radius`, where the center is `ST_MakePoint($1, $2)`: join, filter, project, and
`ORDER BY distance_km ASC`. -/
def nearbyUsersQuery (dist : Point → Point → ℚ) (db : Database) (x y radius : ℚ) :
    List NearbyUser :=
  let center := ST_MakePoint x y
  (((radarJoinUsers db).filter (nearbyWhere dist center radius)).map
    (nearbySelect dist center)).insertionSort (fun a b => a.DistanceKm ≤ b.DistanceKm)

/-- The body of a successful `GetNearbyUsers` answer. -/
structure NearbyUsersResponse where
  count : Nat
  users : List NearbyUser
deriving DecidableEq

/-- The loop `for rows.Next() { rows.Scan(..); nearbyUsers = append(nearbyUsers, user) }`
and the answer after it; `i` is the index of the next row and `acc` is `nearbyUsers`.
When `rows.Next` stops on an error the loop ends like at the last row: the handler does
not look at `rows.Err()`. -/
def scanRows (f : Faults) : Nat → List NearbyUser → List NearbyUser →
    Response NearbyUsersResponse
  | _, [], acc => .json StatusOK ⟨acc.length, acc⟩
  | i, row :: rest, acc =>
    if f.nextAt = some i then .json StatusOK ⟨acc.length, acc⟩
    else if f.scanAt = some i then
      .error StatusInternalServerError (.message "failed to scan nearby user")
    else scanRows f (i + 1) rest (acc ++ [row])

/-- The handler `RadarHandler.GetNearbyUsers`. -/
def GetNearbyUsers (dist : Point → Point → ℚ) (f : Faults) (db : Database)
    (q : NearbyUsersQuery) : Response NearbyUsersResponse :=
  match ShouldBindQuery q with
  | .error e => .error StatusBadRequest (.bind e)
  | .ok req =>
    if f.query then
      .error StatusInternalServerError (.message "failed to fetch nearby users")
    else
      scanRows f 0 (nearbyUsersQuery dist db req.Longitude req.Latitude req.Radius) []

/-! ## handlers/user.go: the handlers that write the `users` table -/

structure CreateUserRequest where
  Email : String
deriving DecidableEq

/-- The JSON body of `POST /users`. -/
structure CreateUserJSON where
  email : Field String
deriving DecidableEq

/-- The tag `binding:"required,email"` of `CreateUserRequest`; the `email` tag of the
validator is the argument `isEmail`. -/
def CreateUserRequest.validate (isEmail : String → Bool) (req : CreateUserRequest) :
    List FieldError :=
  if req.Email = "" then [⟨"Email", "required"⟩]
  else if !isEmail req.Email then [⟨"Email", "email"⟩]
  else []

/-- The call `c.ShouldBindJSON(&req)` for `CreateUserRequest`. -/
def ShouldBindCreateUser (isEmail : String → Bool) (body : CreateUserJSON) :
    Except BindError CreateUserRequest :=
  match body.email.decode "" with
  | some email =>
    let req : CreateUserRequest := ⟨email⟩
    if req.validate isEmail = [] then .ok req else .error (.validation (req.validate isEmail))
  | Option.none => .error .decode

/-- The statement `INSERT INTO users (email) VALUES ($1) RETURNING ..` on the table of
the migration (`id SERIAL PRIMARY KEY`, `email VARCHAR(255) UNIQUE NOT NULL`, timestamps
defaulting to `CURRENT_TIMESTAMP`). -/
def insertUser (now : Nat) (db : Database) (email : String) : Option UserRow × Database :=
  let id : Int := db.users_id_seq + 1
  if email.length ≤ 255 ∧ db.users.all (fun u => u.id != id)
      ∧ db.users.all (fun u => u.email != email) then
    let row : UserRow := ⟨id, email, now, now⟩
    (some row, { db with users := db.users ++ [row], users_id_seq := db.users_id_seq + 1 })
  else
    (Option.none, { db with users_id_seq := db.users_id_seq + 1 })

def UserRow.toUser (u : UserRow) : User := ⟨u.id, u.email, u.created_at, u.updated_at⟩

/-- The handler `UserHandler.Create`. -/
def Create (isEmail : String → Bool) (f : Faults) (now : Nat) (db : Database)
    (body : CreateUserJSON) : Response User × Database :=
  match ShouldBindCreateUser isEmail body with
  | .error e => (.error StatusBadRequest (.bind e), db)
  | .ok req =>
    if f.insertUser then
      (.error StatusInternalServerError (.message "failed to create user"), db)
    else
      match insertUser now db req.Email with
      | (some row, db1) => (.json StatusCreated row.toUser, db1)
      | (Option.none, db1) =>
        (.error StatusInternalServerError (.message "failed to create user"), db1)

/-- The statement `DELETE FROM users WHERE id = $1` with the `ON DELETE CASCADE` of
`user_radar.user_id`: the number of rows of `users` deleted and the state after it. -/
def deleteUser (db : Database) (id : Int) : Nat × Database :=
  ((db.users.filter (fun u => u.id == id)).length,
    { db with
      users := db.users.filter (fun u => u.id != id)
      user_radar := db.user_radar.filter (fun r => r.user_id != id) })

/-- The handler `UserHandler.Delete`; the argument is `strconv.Atoi(c.Param("id"))`. -/
def Delete (f : Faults) (db : Database) (id : Field Int) : Response String × Database :=
  match id with
  | .value n =>
    if f.deleteUser then
      (.error StatusInternalServerError (.message "failed to delete user"), db)
    else
      match deleteUser db n with
      | (rowsAffected, db1) =>
        if rowsAffected = 0 then (.error StatusNotFound (.message "user not found"), db1)
        else (.json StatusOK "user deleted successfully", db1)
  | _ => (.error StatusBadRequest (.message "invalid user id"), db)

/-! ## The server as a transition system -/

/-- A request to one of the handlers that read or write the two tables. -/
inductive Request where
  | createUser (now : Nat) (body : CreateUserJSON)
  | deleteUser (id : Field Int)
  | updateLocation (now : Nat) (body : UpdateLocationJSON)
  | getNearbyUsers (q : NearbyUsersQuery)

/-- The database after one request, served with the given storage faults. -/
def step (isEmail : String → Bool) (db : Database) (c : Faults × Request) : Database :=
  match c.2 with
  | .createUser now body => (Create isEmail c.1 now db body).2
  | .deleteUser id => (Delete c.1 db id).2
  | .updateLocation now body => (UpdateLocation c.1 now db body).2
  | .getNearbyUsers _ => db

/-- The database after a sequence of requests. -/
def run (isEmail : String → Bool) (db : Database) (cs : List (Faults × Request)) : Database :=
  cs.foldl (step isEmail) db

/-- One `UpdateLocation` call: the storage faults, the time and the body. -/
structure UpdateCall where
  faults : Faults
  now : Nat
  body : UpdateLocationJSON

/-- A sequence of `UpdateLocation` calls, one after the other: the answers in order and
the database after the last one. -/
def updateLocations (db : Database) : List UpdateCall → List (Response UserRadar) × Database
  | [] => ([], db)
  | c :: cs =>
    let r := UpdateLocation c.faults c.now db c.body
    let rest := updateLocations r.2 cs
    (r.1 :: rest.1, rest.2)

/-- The constraints of the schema on `user_radar`: `UNIQUE(user_id)` and
`user_id REFERENCES users(id)`; and `id PRIMARY KEY` on `users`. -/
def Database.constraints (db : Database) : Prop :=
  (db.users.map UserRow.id).Nodup
    ∧ (db.user_radar.map RadarRow.user_id).Nodup
    ∧ ∀ r ∈ db.user_radar, userExists db r.user_id = true

instance (db : Database) : Decidable db.constraints := by
  unfold Database.constraints; infer_instance

/-- The query `SELECT COUNT(*) FROM user_radar WHERE user_id = $1` of
`TestUpdateLocation_UpdateExisting`. -/
def countUserRadar (db : Database) (user_id : Int) : Nat :=
  (db.user_radar.filter (fun r => r.user_id == user_id)).length

/-- Every `id` in `users` is a value that the `SERIAL` sequence of the table has given
out. -/
def Database.idsIssued (db : Database) : Prop :=
  ∀ u ∈ db.users, u.id ≤ (db.users_id_seq : Int)

/-! ## Concrete states and requests, to evaluate the handlers on -/

/-- A database with one user, id 1, and no location yet. -/
def oneUserDb : Database := ⟨[⟨1, "berlin@example.com", 0, 0⟩], [], 1, 0⟩

/-- A distance to evaluate the handlers with: 1000 meters for each degree along each
axis. -/
def gridDist (a b : Point) : ℚ := (|a.x - b.x| + |a.y - b.y|) * 1000

/-- Three users with a location: user 1 at latitude 52, user 2 three degrees north of it,
user 3 one degree north of it and inactive. -/
def threeUsersDb : Database :=
  ⟨[⟨1, "berlin@example.com", 0, 0⟩, ⟨2, "hamburg@example.com", 0, 0⟩,
      ⟨3, "inactive@example.com", 0, 0⟩],
    [⟨1, 2, ST_MakePoint 13 55, true, 4, 4⟩, ⟨2, 1, ST_MakePoint 13 52, true, 5, 5⟩,
      ⟨3, 3, ST_MakePoint 13 53, false, 6, 6⟩], 3, 3⟩

/-- The answer of `GetNearbyUsers` around latitude 52, longitude 13 with radius 3 on
`threeUsersDb`. -/
def threeUsersNearby : NearbyUsersResponse :=
  ⟨2, [⟨1, "berlin@example.com", 52, 13, 0, 5⟩, ⟨2, "hamburg@example.com", 55, 13, 3, 4⟩]⟩

/-- Two reports of user 1, the second from another place. -/
def twoReports : List UpdateCall :=
  [⟨Faults.none, 2, ⟨.value 1, .value 48, .value 2, .absent⟩⟩,
    ⟨Faults.none, 3, ⟨.value 1, .value 52, .value 13, .absent⟩⟩]

/-- A storage layer whose only failure is that `rows.Next` stops on an error after the
first row of the result. -/
def rowsErrorAfterFirst : Faults :=
  ⟨false, false, false, Option.none, some 1, false, false⟩

/-- A storage layer whose only failure is that `rows.Scan` fails on the second row of the
result. -/
def scanErrorOnSecond : Faults :=
  ⟨false, false, false, some 1, Option.none, false, false⟩

/-- One user, located far from latitude 52, longitude 13. -/
def farUserDb : Database :=
  ⟨[⟨1, "faraway@example.com", 0, 0⟩], [⟨1, 1, ST_MakePoint (-122) 37, true, 4, 4⟩], 1, 1⟩

/-- Two users are created and each reports a location: user 1 at latitude 52, user 2
three degrees north of it. -/
def twoUsersRequests : List (Faults × Request) :=
  [(Faults.none, .createUser 1 ⟨.value "berlin@example.com"⟩),
    (Faults.none, .createUser 2 ⟨.value "hamburg@example.com"⟩),
    (Faults.none, .updateLocation 3 ⟨.value 1, .value 52, .value 13, .absent⟩),
    (Faults.none, .updateLocation 4 ⟨.value 2, .value 55, .value 13, .absent⟩)]

/-- Requests after user 1 was deleted: a location report for user 1 and a new user. -/
def laterRequests : List (Faults × Request) :=
  [(Faults.none, .updateLocation 6 ⟨.value 1, .value 52, .value 13, .absent⟩),
    (Faults.none, .createUser 7 ⟨.value "munich@example.com"⟩)]

/-! ## Validation, characterised -/

theorem checkField_eq_nil (field : String) (tags : List Tag) (v : ℚ) :
    checkField field tags v = [] ↔ ∀ t ∈ tags, t.holds v = true := by
  unfold checkField
  cases h : tags.find? (fun t => !t.holds v) with
  | none =>
    simp only [true_iff]
    intro t ht
    have := List.find?_eq_none.mp h t ht
    simpa using this
  | some t =>
    simp only [List.cons_ne_nil, false_iff, not_forall]
    have hmem := List.mem_of_find?_eq_some h
    have hp := List.find?_some h
    exact ⟨t, hmem, by simpa using hp⟩

theorem validate_UpdateLocationRequest_eq_nil (req : UpdateLocationRequest) :
    req.validate = [] ↔
      req.UserID ≠ 0 ∧ (req.Latitude ≠ 0 ∧ -90 ≤ req.Latitude ∧ req.Latitude ≤ 90)
        ∧ (req.Longitude ≠ 0 ∧ -180 ≤ req.Longitude ∧ req.Longitude ≤ 180) := by
  simp [UpdateLocationRequest.validate, checkField_eq_nil, Tag.holds, and_assoc]

theorem validate_NearbyUsersRequest_eq_nil (req : NearbyUsersRequest) :
    req.validate = [] ↔
      (req.Latitude ≠ 0 ∧ -90 ≤ req.Latitude ∧ req.Latitude ≤ 90)
        ∧ (req.Longitude ≠ 0 ∧ -180 ≤ req.Longitude ∧ req.Longitude ≤ 180)
        ∧ (req.Radius ≠ 0 ∧ 0 ≤ req.Radius) := by
  simp [NearbyUsersRequest.validate, checkField_eq_nil, Tag.holds, and_assoc]

/-- The requests that `ShouldBindJSON` lets through. -/
theorem ShouldBindJSON_eq_ok (body : UpdateLocationJSON) (req : UpdateLocationRequest) :
    ShouldBindJSON body = .ok req ↔
      body.user_id.decode 0 = some req.UserID ∧ body.latitude.decode 0 = some req.Latitude
        ∧ body.longitude.decode 0 = some req.Longitude
        ∧ body.is_active.decodePtr = some req.IsActive ∧ req.validate = [] := by
  unfold ShouldBindJSON
  cases h1 : body.user_id.decode 0 <;> cases h2 : body.latitude.decode 0 <;>
    cases h3 : body.longitude.decode 0 <;> cases h4 : body.is_active.decodePtr <;>
    simp
  split
  · constructor
    · intro h
      cases h
      simp_all
    · rintro ⟨rfl, rfl, rfl, rfl, -⟩
      rfl
  · constructor
    · intro h
      cases h
    · rintro ⟨rfl, rfl, rfl, rfl, h⟩
      simp_all

/-- A field that decodes to a value other than the zero value was sent with that value. -/
theorem Field.eq_value_of_decode {α : Type} (zero a : α) (fld : Field α)
    (h : fld.decode zero = some a) (ha : a ≠ zero) : fld = .value a := by
  cases fld with
  | absent => simp [Field.decode] at h; exact absurd h.symm ha
  | malformed => simp [Field.decode] at h
  | value b => simp [Field.decode] at h; rw [h]

/-! ## The upsert -/

/-- What a successful upsert returns and leaves in the table. -/
theorem upsertUserRadar_some (now : Nat) (db db1 : Database) (uid : Int) (x y : ℚ)
    (act : Bool) (row : RadarRow)
    (h : upsertUserRadar now db uid x y act = (some row, db1)) :
    row.user_id = uid ∧ row.location = ST_MakePoint x y ∧ row.is_active = act
      ∧ row.updated_at = now ∧ row ∈ db1.user_radar ∧ db1.users = db.users
      ∧ ∀ r ∈ db1.user_radar, r.user_id = uid →
          r.location = ST_MakePoint x y ∧ r.is_active = act := by
  unfold upsertUserRadar at h
  cases hf : db.user_radar.find? (fun r => r.user_id == uid) with
  | some old =>
    rw [hf] at h
    simp only [Prod.mk.injEq, Option.some.injEq] at h
    obtain ⟨hrow, hdb⟩ := h
    have hold : old.user_id = uid := by simpa using List.find?_some hf
    have hmem : old ∈ db.user_radar := List.mem_of_find?_eq_some hf
    subst hrow hdb
    refine ⟨hold, rfl, rfl, rfl, ?_, rfl, ?_⟩
    · simp only [List.mem_map]
      exact ⟨old, hmem, by simp [hold]⟩
    · intro r hr hru
      simp only [List.mem_map] at hr
      obtain ⟨r0, -, rfl⟩ := hr
      by_cases h0 : r0.user_id = uid
      · simp [h0, RadarRow.set]
      · simp [h0] at hru
  | none =>
    rw [hf] at h
    dsimp only at h
    by_cases hc : userExists db uid = true ∧
        (db.user_radar.all fun r => r.id != (db.user_radar_id_seq : Int) + 1) = true
    · rw [if_pos hc] at h
      simp only [Prod.mk.injEq, Option.some.injEq] at h
      obtain ⟨hrow, hdb⟩ := h
      subst hrow hdb
      refine ⟨rfl, rfl, rfl, rfl, by simp, rfl, ?_⟩
      intro r hr hru
      simp only [List.mem_append, List.mem_singleton] at hr
      rcases hr with hr | rfl
      · have := List.find?_eq_none.mp hf r hr
        simp [hru] at this
      · exact ⟨rfl, rfl⟩
    · rw [if_neg hc] at h
      simp at h

/-- A failed upsert leaves both tables as they were. -/
theorem upsertUserRadar_none (now : Nat) (db db1 : Database) (uid : Int) (x y : ℚ)
    (act : Bool) (h : upsertUserRadar now db uid x y act = (Option.none, db1)) :
    db1.users = db.users ∧ db1.user_radar = db.user_radar := by
  unfold upsertUserRadar at h
  cases hf : db.user_radar.find? (fun r => r.user_id == uid) with
  | some old => rw [hf] at h; simp at h
  | none =>
    rw [hf] at h
    dsimp only at h
    by_cases hc : userExists db uid = true ∧
        (db.user_radar.all fun r => r.id != (db.user_radar_id_seq : Int) + 1) = true
    · rw [if_pos hc] at h
      simp at h
    · rw [if_neg hc] at h
      simp only [Prod.mk.injEq, true_and] at h
      subst h
      exact ⟨rfl, rfl⟩

/-! ## UpdateLocation -/

theorem UpdateLocation_of_bind_error (f : Faults) (now : Nat) (db : Database)
    (body : UpdateLocationJSON) (e : BindError) (h : ShouldBindJSON body = .error e) :
    UpdateLocation f now db body = (.error StatusBadRequest (.bind e), db) := by
  unfold UpdateLocation
  rw [h]

/-- A body with a coordinate out of range does not bind. -/
theorem ShouldBindJSON_out_of_range (body : UpdateLocationJSON)
    (h : (∃ lat, body.latitude = .value lat ∧ (lat < -90 ∨ 90 < lat))
      ∨ (∃ lon, body.longitude = .value lon ∧ (lon < -180 ∨ 180 < lon))) :
    ∃ e, ShouldBindJSON body = .error e := by
  cases hb : ShouldBindJSON body with
  | error e => exact ⟨e, rfl⟩
  | ok req =>
    exfalso
    obtain ⟨-, hlat, hlon, -, hv⟩ := (ShouldBindJSON_eq_ok body req).mp hb
    obtain ⟨-, ⟨-, h1, h2⟩, -, h3, h4⟩ := (validate_UpdateLocationRequest_eq_nil req).mp hv
    rcases h with ⟨lat, hl, hr⟩ | ⟨lon, hl, hr⟩
    · rw [hl] at hlat
      simp only [Field.decode, Option.some.injEq] at hlat
      subst hlat
      rcases hr with hr | hr
      · exact absurd h1 (not_le.mpr hr)
      · exact absurd h2 (not_le.mpr hr)
    · rw [hl] at hlon
      simp only [Field.decode, Option.some.injEq] at hlon
      subst hlon
      rcases hr with hr | hr
      · exact absurd h3 (not_le.mpr hr)
      · exact absurd h4 (not_le.mpr hr)

/-- The bodies that `UpdateLocation` does not answer with the validation error: user id,
latitude and longitude are numbers, none of them is 0, the coordinates are in range, and
`is_active` is a boolean or absent. -/
theorem ShouldBindJSON_accepts_iff (body : UpdateLocationJSON) :
    (∃ req, ShouldBindJSON body = .ok req) ↔
      ∃ uid lat lon, body.user_id = .value uid ∧ body.latitude = .value lat
        ∧ body.longitude = .value lon ∧ body.is_active ≠ .malformed ∧ uid ≠ 0
        ∧ (lat ≠ 0 ∧ -90 ≤ lat ∧ lat ≤ 90) ∧ (lon ≠ 0 ∧ -180 ≤ lon ∧ lon ≤ 180) := by
  constructor
  · rintro ⟨req, h⟩
    obtain ⟨h1, h2, h3, h4, hv⟩ := (ShouldBindJSON_eq_ok body req).mp h
    obtain ⟨hu, hlat, hlon⟩ := (validate_UpdateLocationRequest_eq_nil req).mp hv
    refine ⟨req.UserID, req.Latitude, req.Longitude, Field.eq_value_of_decode 0 _ _ h1 hu,
      Field.eq_value_of_decode 0 _ _ h2 hlat.1, Field.eq_value_of_decode 0 _ _ h3 hlon.1, ?_,
      hu, hlat, hlon⟩
    intro hm
    rw [hm] at h4
    simp [Field.decodePtr] at h4
  · rintro ⟨uid, lat, lon, h1, h2, h3, h4, hu, hlat, hlon⟩
    cases ha : body.is_active with
    | malformed => exact absurd ha h4
    | absent =>
      refine ⟨⟨uid, lat, lon, Option.none⟩, (ShouldBindJSON_eq_ok _ _).mpr ?_⟩
      rw [h1, h2, h3, ha]
      exact ⟨rfl, rfl, rfl, rfl, (validate_UpdateLocationRequest_eq_nil _).mpr ⟨hu, hlat, hlon⟩⟩
    | value b =>
      refine ⟨⟨uid, lat, lon, some b⟩, (ShouldBindJSON_eq_ok _ _).mpr ?_⟩
      rw [h1, h2, h3, ha]
      exact ⟨rfl, rfl, rfl, rfl, (validate_UpdateLocationRequest_eq_nil _).mpr ⟨hu, hlat, hlon⟩⟩

/-- C1 (the code at the failing input): user 1 exists and the storage works, yet
`UpdateLocation` answers a report from the equator (latitude 0, longitude 13) and one
from the prime meridian (latitude 52, longitude 0) with the validation error of the
`required` tag and stores nothing, while it accepts latitude 1/2 at the same longitude. -/
theorem UpdateLocation_zero_coordinate_rejected :
    UpdateLocation Faults.none 7 oneUserDb ⟨.value 1, .value 0, .value 13, .absent⟩
        = (.error StatusBadRequest (.bind (.validation [⟨"Latitude", "required"⟩])), oneUserDb)
      ∧ UpdateLocation Faults.none 7 oneUserDb ⟨.value 1, .value 52, .value 0, .absent⟩
        = (.error StatusBadRequest (.bind (.validation [⟨"Longitude", "required"⟩])), oneUserDb)
      ∧ (UpdateLocation Faults.none 7 oneUserDb ⟨.value 1, .value (1 / 2), .value 13, .absent⟩).1
        = .json StatusOK ⟨1, 1, 1 / 2, 13, true, 7, 7⟩ := by
  decide!

/-- C2: a request whose latitude is outside [-90, 90] or whose longitude is outside
[-180, 180] is answered with the validation error (400) and the database, so the set of
location records, is exactly what it was. -/
theorem UpdateLocation_out_of_range (f : Faults) (now : Nat) (db : Database)
    (body : UpdateLocationJSON)
    (h : (∃ lat, body.latitude = .value lat ∧ (lat < -90 ∨ 90 < lat))
      ∨ (∃ lon, body.longitude = .value lon ∧ (lon < -180 ∨ 180 < lon))) :
    (∃ e, (UpdateLocation f now db body).1 = .error StatusBadRequest (.bind e))
      ∧ (UpdateLocation f now db body).2 = db := by
  obtain ⟨e, he⟩ := ShouldBindJSON_out_of_range body h
  rw [UpdateLocation_of_bind_error f now db body e he]
  exact ⟨⟨e, rfl⟩, rfl⟩

theorem UpdateLocation_out_of_range_witness :
    (∃ e, (UpdateLocation Faults.none 7 oneUserDb ⟨.value 1, .value 91, .value 0, .absent⟩).1
        = .error StatusBadRequest (.bind e))
      ∧ (UpdateLocation Faults.none 7 oneUserDb ⟨.value 1, .value 91, .value 0, .absent⟩).2
        = oneUserDb :=
  UpdateLocation_out_of_range Faults.none 7 oneUserDb ⟨.value 1, .value 91, .value 0, .absent⟩
    (Or.inl ⟨91, rfl, Or.inr (by norm_num)⟩)

/-- C4: a request that passes validation and names a user that does not exist is answered
"user not found" (404) when the existence query itself works, is never answered with
success, and leaves the database as it was; and a request that is out of range for a
user that does not exist gets the validation error (400): validation comes first. -/
theorem UpdateLocation_user_not_found (f : Faults) (now : Nat) (db : Database)
    (body : UpdateLocationJSON) :
    (∀ req, ShouldBindJSON body = .ok req → userExists db req.UserID = false →
        (f.verifyUser = false →
          (UpdateLocation f now db body).1
            = .error StatusNotFound (.message "user not found"))
        ∧ (∃ c e, (UpdateLocation f now db body).1 = .error c e
            ∧ (c = StatusNotFound ∨ c = StatusInternalServerError))
        ∧ (UpdateLocation f now db body).2 = db)
      ∧ (∀ uid, body.user_id = .value uid → userExists db uid = false →
          ((∃ lat, body.latitude = .value lat ∧ (lat < -90 ∨ 90 < lat))
            ∨ (∃ lon, body.longitude = .value lon ∧ (lon < -180 ∨ 180 < lon))) →
          (∃ e, (UpdateLocation f now db body).1 = .error StatusBadRequest (.bind e))
            ∧ (UpdateLocation f now db body).2 = db) := by
  constructor
  · intro req hb hne
    unfold UpdateLocation
    rw [hb]
    cases hv : f.verifyUser
    · simp [hne]
    · simp
  · intro uid _ _ h
    obtain ⟨e, he⟩ := ShouldBindJSON_out_of_range body h
    rw [UpdateLocation_of_bind_error f now db body e he]
    exact ⟨⟨e, rfl⟩, rfl⟩

theorem UpdateLocation_user_not_found_witness :
    UpdateLocation Faults.none 7 oneUserDb ⟨.value 99999, .value 48, .value 2, .absent⟩
      = (.error StatusNotFound (.message "user not found"), oneUserDb) := by
  have h := (UpdateLocation_user_not_found Faults.none 7 oneUserDb
    ⟨.value 99999, .value 48, .value 2, .absent⟩).1 ⟨99999, 48, 2, Option.none⟩
    (by rfl) (by decide)
  exact Prod.ext (h.1 rfl) h.2.2

/-- A successful `UpdateLocation` is a bound request followed by a successful upsert of
the bound values, longitude as x and latitude as y. -/
theorem UpdateLocation_json (f : Faults) (now : Nat) (db db1 : Database)
    (body : UpdateLocationJSON) (code : Nat) (radar : UserRadar)
    (h : UpdateLocation f now db body = (.json code radar, db1)) :
    ∃ req row, ShouldBindJSON body = .ok req ∧ code = StatusOK ∧ radar = row.toUserRadar
      ∧ upsertUserRadar now db req.UserID req.Longitude req.Latitude
          (match req.IsActive with
            | some b => b
            | Option.none => true) = (some row, db1) := by
  unfold UpdateLocation at h
  cases hb : ShouldBindJSON body with
  | error e => rw [hb] at h; simp at h
  | ok req =>
    rw [hb] at h
    dsimp only at h
    split at h
    · simp at h
    split at h
    · simp at h
    split at h
    · simp at h
    split at h
    · rename_i row db2 hup
      simp only [Prod.mk.injEq, Response.json.injEq] at h
      obtain ⟨⟨hcode, hradar⟩, hdb⟩ := h
      subst hdb
      exact ⟨req, row, rfl, hcode.symm, hradar.symm, hup⟩
    · simp at h

/-- The error answers of `UpdateLocation` are 400, 404 and 500. -/
theorem UpdateLocation_error_code (f : Faults) (now : Nat) (db : Database)
    (body : UpdateLocationJSON) (c : Nat) (e : ErrorBody)
    (h : (UpdateLocation f now db body).1 = .error c e) :
    c = StatusBadRequest ∨ c = StatusNotFound ∨ c = StatusInternalServerError := by
  unfold UpdateLocation at h
  cases hb : ShouldBindJSON body with
  | error e => rw [hb] at h; simp at h; exact Or.inl h.1.symm
  | ok req =>
    rw [hb] at h
    dsimp only at h
    split at h
    · simp at h; exact Or.inr (Or.inr h.1.symm)
    split at h
    · simp at h; exact Or.inr (Or.inl h.1.symm)
    split at h
    · simp at h; exact Or.inr (Or.inr h.1.symm)
    split at h
    · simp at h
    · simp at h; exact Or.inr (Or.inr h.1.symm)

/-- C10: the record that a successful `UpdateLocation` returns has the user id, the
latitude and the longitude of the request (not swapped) and the `is_active` of the
request, true when the request has none; the record is in the table afterwards, and every
record of that user in the table has these coordinates and this `is_active`. -/
theorem UpdateLocation_returns_request (f : Faults) (now : Nat) (db db1 : Database)
    (body : UpdateLocationJSON) (code : Nat) (radar : UserRadar)
    (h : UpdateLocation f now db body = (.json code radar, db1)) :
    code = StatusOK
      ∧ body.user_id = .value radar.UserID
      ∧ body.latitude = .value radar.Latitude
      ∧ body.longitude = .value radar.Longitude
      ∧ (∀ b, body.is_active = .value b → radar.IsActive = b)
      ∧ (body.is_active = .absent → radar.IsActive = true)
      ∧ (∃ row ∈ db1.user_radar, row.toUserRadar = radar)
      ∧ (∀ row ∈ db1.user_radar, row.user_id = radar.UserID →
          ST_Y row.location = radar.Latitude ∧ ST_X row.location = radar.Longitude
            ∧ row.is_active = radar.IsActive) := by
  obtain ⟨req, row, hb, hcode, hradar, hup⟩ := UpdateLocation_json f now db db1 body code radar h
  obtain ⟨huid, hlat, hlon, hact, hv⟩ := (ShouldBindJSON_eq_ok body req).mp hb
  obtain ⟨hu0, ⟨hl0, -, -⟩, ⟨hn0, -, -⟩⟩ := (validate_UpdateLocationRequest_eq_nil req).mp hv
  obtain ⟨h1, h2, h3, -, h5, -, h7⟩ := upsertUserRadar_some _ _ _ _ _ _ _ _ hup
  have hU : radar.UserID = req.UserID := by rw [hradar]; exact h1
  have hLat : radar.Latitude = req.Latitude := by
    rw [hradar]; simp [RadarRow.toUserRadar, h2, ST_Y, ST_MakePoint]
  have hLon : radar.Longitude = req.Longitude := by
    rw [hradar]; simp [RadarRow.toUserRadar, h2, ST_X, ST_MakePoint]
  have hAct : radar.IsActive = (match req.IsActive with
      | some b => b
      | Option.none => true) := by
    rw [hradar]; exact h3
  refine ⟨hcode, ?_, ?_, ?_, ?_, ?_, ⟨row, h5, hradar.symm⟩, ?_⟩
  · rw [hU]; exact Field.eq_value_of_decode 0 _ _ huid hu0
  · rw [hLat]; exact Field.eq_value_of_decode 0 _ _ hlat hl0
  · rw [hLon]; exact Field.eq_value_of_decode 0 _ _ hlon hn0
  · intro b hbv
    rw [hbv] at hact
    simp only [Field.decodePtr, Option.some.injEq] at hact
    rw [hAct, ← hact]
  · intro hbv
    rw [hbv] at hact
    simp only [Field.decodePtr, Option.some.injEq] at hact
    rw [hAct, ← hact]
  · intro r hr hru
    obtain ⟨hloc, hract⟩ := h7 r hr (by rw [hru, hU])
    rw [hLat, hLon, hloc, hract, hradar]
    exact ⟨rfl, rfl, h3.symm⟩

theorem UpdateLocation_returns_request_witness :
    ∃ row ∈ (UpdateLocation Faults.none 7 oneUserDb
        ⟨.value 1, .value 48, .value 2, .value false⟩).2.user_radar,
      row.toUserRadar = ⟨1, 1, 48, 2, false, 7, 7⟩ :=
  (UpdateLocation_returns_request Faults.none 7 oneUserDb
    (UpdateLocation Faults.none 7 oneUserDb ⟨.value 1, .value 48, .value 2, .value false⟩).2
    ⟨.value 1, .value 48, .value 2, .value false⟩ StatusOK ⟨1, 1, 48, 2, false, 7, 7⟩
    (Prod.ext (by decide!) rfl)).2.2.2.2.2.2.1

/-! ## GetNearbyUsers -/

/-- The requests that `ShouldBindQuery` lets through. -/
theorem ShouldBindQuery_eq_ok (q : NearbyUsersQuery) (req : NearbyUsersRequest) :
    ShouldBindQuery q = .ok req ↔
      q.latitude.decode 0 = some req.Latitude ∧ q.longitude.decode 0 = some req.Longitude
        ∧ q.radius.decode 0 = some req.Radius ∧ req.validate = [] := by
  unfold ShouldBindQuery
  cases h1 : q.latitude.decode 0 <;> cases h2 : q.longitude.decode 0 <;>
    cases h3 : q.radius.decode 0 <;> simp
  split
  · constructor
    · intro h
      cases h
      simp_all
    · rintro ⟨rfl, rfl, rfl, -⟩
      rfl
  · constructor
    · intro h
      cases h
    · rintro ⟨rfl, rfl, rfl, h⟩
      simp_all

/-- The query that was bound is the query that was sent. -/
theorem ShouldBindQuery_ok_query (q : NearbyUsersQuery) (req : NearbyUsersRequest)
    (h : ShouldBindQuery q = .ok req) :
    q = ⟨.value req.Latitude, .value req.Longitude, .value req.Radius⟩ := by
  obtain ⟨h1, h2, h3, hv⟩ := (ShouldBindQuery_eq_ok q req).mp h
  obtain ⟨⟨a, -, -⟩, ⟨b, -, -⟩, c, -⟩ := (validate_NearbyUsersRequest_eq_nil req).mp hv
  have e1 := Field.eq_value_of_decode 0 _ _ h1 a
  have e2 := Field.eq_value_of_decode 0 _ _ h2 b
  have e3 := Field.eq_value_of_decode 0 _ _ h3 c
  cases q
  simp_all

/-- The rows the loop of `GetNearbyUsers` has collected when it answers: a prefix of
the rows of the query, all of them when `rows.Next` meets no error. -/
theorem scanRows_json (f : Faults) (rows : List NearbyUser) :
    ∀ (i : Nat) (acc : List NearbyUser) (code : Nat) (resp : NearbyUsersResponse),
      scanRows f i rows acc = .json code resp →
        code = StatusOK ∧ resp.count = resp.users.length
          ∧ (∃ k, resp.users = acc ++ rows.take k)
          ∧ (f.nextAt = Option.none → resp.users = acc ++ rows) := by
  induction rows with
  | nil =>
    intro i acc code resp h
    simp only [scanRows, Response.json.injEq] at h
    obtain ⟨rfl, rfl⟩ := h
    exact ⟨rfl, rfl, ⟨0, by simp⟩, fun _ => by simp⟩
  | cons row rest ih =>
    intro i acc code resp h
    unfold scanRows at h
    by_cases h1 : f.nextAt = some i
    · rw [if_pos h1] at h
      simp only [Response.json.injEq] at h
      obtain ⟨rfl, rfl⟩ := h
      exact ⟨rfl, rfl, ⟨0, by simp⟩, fun hn => by rw [hn] at h1; cases h1⟩
    · rw [if_neg h1] at h
      by_cases h2 : f.scanAt = some i
      · rw [if_pos h2] at h
        cases h
      · rw [if_neg h2] at h
        obtain ⟨hc, hn, ⟨k, hk⟩, hall⟩ := ih (i + 1) (acc ++ [row]) code resp h
        refine ⟨hc, hn, ⟨k + 1, ?_⟩, fun hno => ?_⟩
        · rw [hk]; simp
        · rw [hall hno]; simp

/-- The rows of the query, as a set. -/
theorem mem_nearbyUsersQuery (dist : Point → Point → ℚ) (db : Database) (x y radius : ℚ)
    (e : NearbyUser) :
    e ∈ nearbyUsersQuery dist db x y radius ↔
      ∃ ur ∈ db.user_radar, ∃ u ∈ db.users, ur.user_id = u.id ∧ ur.is_active = true
        ∧ dist ur.location (ST_MakePoint x y) ≤ radius * 1000
        ∧ e = ⟨ur.user_id, u.email, ST_Y ur.location, ST_X ur.location,
            dist ur.location (ST_MakePoint x y) / 1000, ur.updated_at⟩ := by
  unfold nearbyUsersQuery
  rw [(List.perm_insertionSort _ _).mem_iff]
  simp only [radarJoinUsers, nearbyWhere, nearbySelect, List.mem_map, List.mem_filter,
    List.mem_flatMap, ST_DWithin, Prod.exists, Bool.and_eq_true, beq_iff_eq,
    decide_eq_true_eq]
  constructor
  · rintro ⟨ur, u, ⟨⟨ur1, hur1, u1, ⟨hu1, hj⟩, heq⟩, hact, hd⟩, rfl⟩
    simp only [Prod.mk.injEq] at heq
    obtain ⟨rfl, rfl⟩ := heq
    exact ⟨ur1, hur1, u1, hu1, hj, hact, hd, rfl⟩
  · rintro ⟨ur, hur, u, hu, hj, hact, hd, rfl⟩
    exact ⟨ur, u, ⟨⟨ur, hur, u, ⟨hu, hj⟩, rfl⟩, hact, hd⟩, rfl⟩

/-- The rows of the query are in ascending order of `distance_km`. -/
theorem nearbyUsersQuery_sorted (dist : Point → Point → ℚ) (db : Database) (x y radius : ℚ) :
    (nearbyUsersQuery dist db x y radius).Sorted (fun a b => a.DistanceKm ≤ b.DistanceKm) := by
  unfold nearbyUsersQuery
  haveI : IsTotal NearbyUser (fun a b => a.DistanceKm ≤ b.DistanceKm) :=
    ⟨fun a b => le_total a.DistanceKm b.DistanceKm⟩
  haveI : IsTrans NearbyUser (fun a b => a.DistanceKm ≤ b.DistanceKm) :=
    ⟨fun _ _ _ hab hbc => le_trans hab hbc⟩
  exact List.sorted_insertionSort _ _

/-- A successful answer of `GetNearbyUsers` comes from a bound query and lists a prefix of
the rows of the database query, all of them when `rows.Next` meets no error. -/
theorem GetNearbyUsers_json (dist : Point → Point → ℚ) (f : Faults) (db : Database)
    (q : NearbyUsersQuery) (code : Nat) (resp : NearbyUsersResponse)
    (h : GetNearbyUsers dist f db q = .json code resp) :
    ∃ req, ShouldBindQuery q = .ok req ∧ code = StatusOK ∧ resp.count = resp.users.length
      ∧ (∃ k, resp.users
          = (nearbyUsersQuery dist db req.Longitude req.Latitude req.Radius).take k)
      ∧ (f.nextAt = Option.none →
          resp.users = nearbyUsersQuery dist db req.Longitude req.Latitude req.Radius) := by
  unfold GetNearbyUsers at h
  cases hb : ShouldBindQuery q with
  | error e => rw [hb] at h; cases h
  | ok req =>
    rw [hb] at h
    dsimp only at h
    by_cases hq : f.query = true
    · rw [if_pos hq] at h; cases h
    · rw [if_neg hq] at h
      obtain ⟨hc, hn, ⟨k, hk⟩, hall⟩ := scanRows_json f _ 0 [] code resp h
      exact ⟨req, rfl, hc, hn, ⟨k, by simpa using hk⟩, fun hno => by simpa using hall hno⟩

/-- The queries that `GetNearbyUsers` does not answer with the validation error: all
three parameters are numbers, none of them is 0, the centre is in range and the radius is
positive. -/
theorem ShouldBindQuery_accepts_iff (q : NearbyUsersQuery) :
    (∃ req, ShouldBindQuery q = .ok req) ↔
      ∃ lat lon radius, q = ⟨.value lat, .value lon, .value radius⟩
        ∧ (lat ≠ 0 ∧ -90 ≤ lat ∧ lat ≤ 90) ∧ (lon ≠ 0 ∧ -180 ≤ lon ∧ lon ≤ 180)
        ∧ 0 < radius := by
  constructor
  · rintro ⟨req, h⟩
    obtain ⟨-, -, -, hv⟩ := (ShouldBindQuery_eq_ok q req).mp h
    obtain ⟨h1, h2, h3, h4⟩ := (validate_NearbyUsersRequest_eq_nil req).mp hv
    exact ⟨req.Latitude, req.Longitude, req.Radius, ShouldBindQuery_ok_query q req h, h1, h2,
      lt_of_le_of_ne h4 (Ne.symm h3)⟩
  · rintro ⟨lat, lon, radius, rfl, h1, h2, h3⟩
    refine ⟨⟨lat, lon, radius⟩, (ShouldBindQuery_eq_ok _ _).mpr ⟨rfl, rfl, rfl, ?_⟩⟩
    exact (validate_NearbyUsersRequest_eq_nil _).mpr ⟨h1, h2, ne_of_gt h3, le_of_lt h3⟩

theorem GetNearbyUsers_threeUsersDb :
    GetNearbyUsers gridDist Faults.none threeUsersDb ⟨.value 52, .value 13, .value 3⟩
      = .json StatusOK threeUsersNearby := by
  decide!

/-- C5 (the code at the failing input): `GetNearbyUsers` answers a query with a valid
centre and radius 0, a query centred on latitude 0 and a query centred on longitude 0 with
the validation error of the `required` tag, while it accepts radius 1/2 at the first
centre. -/
theorem GetNearbyUsers_zero_parameter_rejected :
    GetNearbyUsers gridDist Faults.none threeUsersDb ⟨.value 52, .value 13, .value 0⟩
        = .error StatusBadRequest (.bind (.validation [⟨"Radius", "required"⟩]))
      ∧ GetNearbyUsers gridDist Faults.none threeUsersDb ⟨.value 0, .value 13, .value 10⟩
        = .error StatusBadRequest (.bind (.validation [⟨"Latitude", "required"⟩]))
      ∧ GetNearbyUsers gridDist Faults.none threeUsersDb ⟨.value 52, .value 0, .value 10⟩
        = .error StatusBadRequest (.bind (.validation [⟨"Longitude", "required"⟩]))
      ∧ GetNearbyUsers gridDist Faults.none threeUsersDb ⟨.value 52, .value 13, .value (1 / 2)⟩
        = .json StatusOK ⟨1, [⟨1, "berlin@example.com", 52, 13, 0, 5⟩]⟩ := by
  decide!

/-- C6: with `user_id` unique in `user_radar`, no entry of a `GetNearbyUsers` answer
belongs to a record whose `is_active` is false. -/
theorem GetNearbyUsers_excludes_inactive (dist : Point → Point → ℚ) (f : Faults)
    (db : Database) (q : NearbyUsersQuery) (code : Nat) (resp : NearbyUsersResponse)
    (hu : (db.user_radar.map RadarRow.user_id).Nodup)
    (h : GetNearbyUsers dist f db q = .json code resp) :
    ∀ e ∈ resp.users, ∀ r ∈ db.user_radar, r.user_id = e.UserID → r.is_active = true := by
  obtain ⟨req, -, -, -, ⟨k, hk⟩, -⟩ := GetNearbyUsers_json dist f db q code resp h
  intro e he r hr hre
  rw [hk] at he
  obtain ⟨ur, hur, u, -, -, hact, -, rfl⟩ :=
    (mem_nearbyUsersQuery dist db _ _ _ e).mp (List.mem_of_mem_take he)
  have : r = ur := List.inj_on_of_nodup_map hu hr hur hre
  rw [this]
  exact hact

theorem GetNearbyUsers_excludes_inactive_witness :
    (threeUsersDb.user_radar.map RadarRow.user_id).Nodup
      ∧ GetNearbyUsers gridDist Faults.none threeUsersDb ⟨.value 52, .value 13, .value 3⟩
        = .json StatusOK threeUsersNearby
      ∧ RadarRow.is_active ⟨1, 2, ST_MakePoint 13 55, true, 4, 4⟩ = true :=
  ⟨by decide, GetNearbyUsers_threeUsersDb,
    GetNearbyUsers_excludes_inactive gridDist Faults.none threeUsersDb
      ⟨.value 52, .value 13, .value 3⟩ StatusOK threeUsersNearby (by decide)
      GetNearbyUsers_threeUsersDb ⟨2, "hamburg@example.com", 55, 13, 3, 4⟩
      (List.Mem.tail _ (List.Mem.head _)) ⟨1, 2, ST_MakePoint 13 55, true, 4, 4⟩
      (List.Mem.head _) rfl⟩

/-- C9: the entries of a `GetNearbyUsers` answer are in ascending order of `distance_km`:
each entry's distance is at most the next one's. -/
theorem GetNearbyUsers_sorted (dist : Point → Point → ℚ) (f : Faults)
    (db : Database) (q : NearbyUsersQuery) (code : Nat) (resp : NearbyUsersResponse)
    (h : GetNearbyUsers dist f db q = .json code resp) :
    ∀ (i : Nat) (hi : i + 1 < resp.users.length),
      (resp.users.get ⟨i, Nat.lt_of_succ_lt hi⟩).DistanceKm
        ≤ (resp.users.get ⟨i + 1, hi⟩).DistanceKm := by
  obtain ⟨req, -, -, -, ⟨k, hk⟩, -⟩ := GetNearbyUsers_json dist f db q code resp h
  have hs : resp.users.Sorted (fun a b => a.DistanceKm ≤ b.DistanceKm) := by
    rw [hk]
    exact (nearbyUsersQuery_sorted dist db _ _ _).sublist (List.take_sublist _ _)
  intro i hi
  exact hs.rel_get_of_lt (Fin.mk_lt_mk.mpr (Nat.lt_succ_self i))

theorem GetNearbyUsers_sorted_witness :
    (threeUsersNearby.users.get ⟨0, by decide⟩).DistanceKm
      ≤ (threeUsersNearby.users.get ⟨1, by decide⟩).DistanceKm :=
  GetNearbyUsers_sorted gridDist Faults.none threeUsersDb
    ⟨.value 52, .value 13, .value 3⟩ StatusOK threeUsersNearby GetNearbyUsers_threeUsersDb
    0 (by decide)

/-! ## Each record at most once -/

/-- With `id` unique in `users`, the join condition selects at most one user. -/
theorem filter_id_length_le_one (uid : Int) :
    ∀ users : List UserRow, (users.map UserRow.id).Nodup →
      (users.filter (fun u => uid == u.id)).length ≤ 1 := by
  intro users
  induction users with
  | nil => intro _; simp
  | cons u us ih =>
    intro hn
    rw [List.map_cons, List.nodup_cons] at hn
    by_cases hu : uid = u.id
    · have hnil : us.filter (fun v => uid == v.id) = [] := by
        rw [List.filter_eq_nil_iff]
        intro v hv hvid
        apply hn.1
        rw [← hu, beq_iff_eq.mp hvid]
        exact List.mem_map_of_mem _ hv
      rw [List.filter_cons_of_pos (by simpa using hu), hnil]
      simp
    · rw [List.filter_cons_of_neg (by simpa using hu)]
      exact ih hn.2

/-- With `id` unique in `users`, the join keeps each row of `user_radar` at most once and
in the order of the table. -/
theorem radarJoinUsers_fst_sublist (db : Database) (hn : (db.users.map UserRow.id).Nodup) :
    ((radarJoinUsers db).map Prod.fst).Sublist db.user_radar := by
  unfold radarJoinUsers
  induction db.user_radar with
  | nil => simp
  | cons r rs ih =>
    rw [List.flatMap_cons, List.map_append]
    have h1 : (((db.users.filter (fun u => r.user_id == u.id)).map (fun u => (r, u))).map
        Prod.fst).Sublist [r] := by
      have hl := filter_id_length_le_one r.user_id db.users hn
      cases hf : db.users.filter (fun u => r.user_id == u.id) with
      | nil => simp
      | cons a t =>
        rw [hf] at hl
        cases t with
        | nil => simp
        | cons b t => simp at hl
    exact h1.append ih

/-- Under the constraints of the schema no user id occurs twice among the rows of the
query. -/
theorem nearbyUsersQuery_nodup (dist : Point → Point → ℚ) (db : Database) (x y radius : ℚ)
    (hc : db.constraints) :
    ((nearbyUsersQuery dist db x y radius).map NearbyUser.UserID).Nodup := by
  unfold nearbyUsersQuery
  dsimp only
  rw [((List.perm_insertionSort _ _).map NearbyUser.UserID).nodup_iff, List.map_map]
  have h1 : ((radarJoinUsers db).filter
      (nearbyWhere dist (ST_MakePoint x y) radius)).Sublist (radarJoinUsers db) :=
    List.filter_sublist _
  have h2 := (h1.map Prod.fst).trans (radarJoinUsers_fst_sublist db hc.1)
  have h3 := hc.2.1.sublist (h2.map RadarRow.user_id)
  rw [List.map_map] at h3
  exact h3

/-- What the query and the loop give when reading the rows meets no error, in the exact
arithmetic of the embedding: under the constraints of the schema an active record whose
distance to the centre is at most the radius (a record exactly at the radius too) is in
the answer exactly once, with its own coordinates and distance, and a record farther
than the radius is not in it. -/
theorem GetNearbyUsers_complete (dist : Point → Point → ℚ) (f : Faults)
    (db : Database) (q : NearbyUsersQuery) (code : Nat) (resp : NearbyUsersResponse)
    (hc : db.constraints) (hf : f.nextAt = Option.none)
    (h : GetNearbyUsers dist f db q = .json code resp) :
    ∃ lat lon radius, q = ⟨.value lat, .value lon, .value radius⟩ ∧
      ∀ r ∈ db.user_radar,
        (r.is_active = true ∧ dist r.location (ST_MakePoint lon lat) / 1000 ≤ radius →
          (resp.users.map NearbyUser.UserID).count r.user_id = 1
            ∧ ∃ e ∈ resp.users, e.UserID = r.user_id ∧ e.Latitude = ST_Y r.location
                ∧ e.Longitude = ST_X r.location
                ∧ e.DistanceKm = dist r.location (ST_MakePoint lon lat) / 1000)
        ∧ (radius < dist r.location (ST_MakePoint lon lat) / 1000 →
          (resp.users.map NearbyUser.UserID).count r.user_id = 0) := by
  obtain ⟨req, hb, -, -, -, hall⟩ := GetNearbyUsers_json dist f db q code resp h
  have hus := hall hf
  refine ⟨req.Latitude, req.Longitude, req.Radius, ShouldBindQuery_ok_query q req hb, ?_⟩
  intro r hr
  constructor
  · rintro ⟨hact, hd⟩
    rw [div_le_iff₀ (by norm_num)] at hd
    obtain ⟨u, hu, hid⟩ : ∃ u ∈ db.users, r.user_id = u.id := by
      have := hc.2.2 r hr
      simp only [userExists, List.any_eq_true, beq_iff_eq] at this
      obtain ⟨u, hu, hid⟩ := this
      exact ⟨u, hu, hid.symm⟩
    have hmem : (⟨r.user_id, u.email, ST_Y r.location, ST_X r.location,
        dist r.location (ST_MakePoint req.Longitude req.Latitude) / 1000, r.updated_at⟩ :
          NearbyUser) ∈ resp.users := by
      rw [hus]
      exact (mem_nearbyUsersQuery dist db _ _ _ _).mpr ⟨r, hr, u, hu, hid, hact, hd, rfl⟩
    refine ⟨?_, _, hmem, rfl, rfl, rfl, rfl⟩
    apply List.count_eq_one_of_mem
    · rw [hus]
      exact nearbyUsersQuery_nodup dist db _ _ _ hc
    · exact List.mem_map_of_mem NearbyUser.UserID hmem
  · intro hfar
    rw [List.count_eq_zero]
    intro hin
    rw [List.mem_map] at hin
    obtain ⟨e, he, heu⟩ := hin
    rw [hus] at he
    obtain ⟨ur, hur, u, -, -, -, hd, rfl⟩ := (mem_nearbyUsersQuery dist db _ _ _ e).mp he
    have : ur = r := List.inj_on_of_nodup_map hc.2.1 hur hr heu
    subst this
    rw [← div_le_iff₀ (by norm_num)] at hd
    exact absurd hd (not_le.mpr hfar)

theorem GetNearbyUsers_complete_witness :
    ∃ lat lon radius,
      (⟨.value 52, .value 13, .value 3⟩ : NearbyUsersQuery)
          = ⟨.value lat, .value lon, .value radius⟩ ∧
        ∀ r ∈ threeUsersDb.user_radar,
          (r.is_active = true ∧ gridDist r.location (ST_MakePoint lon lat) / 1000 ≤ radius →
            (threeUsersNearby.users.map NearbyUser.UserID).count r.user_id = 1
              ∧ ∃ e ∈ threeUsersNearby.users, e.UserID = r.user_id
                  ∧ e.Latitude = ST_Y r.location ∧ e.Longitude = ST_X r.location
                  ∧ e.DistanceKm = gridDist r.location (ST_MakePoint lon lat) / 1000)
          ∧ (radius < gridDist r.location (ST_MakePoint lon lat) / 1000 →
            (threeUsersNearby.users.map NearbyUser.UserID).count r.user_id = 0) :=
  GetNearbyUsers_complete gridDist Faults.none threeUsersDb
    ⟨.value 52, .value 13, .value 3⟩ StatusOK threeUsersNearby (by decide) rfl
    GetNearbyUsers_threeUsersDb

/-- C7 (the code at the failing input): `threeUsersDb` meets the constraints of the
schema and the record of user 2 in it is active and exactly at the radius (3000 meters,
radius 3) from the centre of the query; when `rows.Next` stops on an error after the
first row, `GetNearbyUsers` answers 200 with user 1 only and no entry for user 2, where
on a working storage layer the same query lists user 2 exactly once. -/
theorem GetNearbyUsers_truncated_omits_record :
    threeUsersDb.constraints
      ∧ (⟨1, 2, ST_MakePoint 13 55, true, 4, 4⟩ : RadarRow) ∈ threeUsersDb.user_radar
      ∧ gridDist (ST_MakePoint 13 55) (ST_MakePoint 13 52) / 1000 ≤ 3
      ∧ GetNearbyUsers gridDist rowsErrorAfterFirst threeUsersDb
          ⟨.value 52, .value 13, .value 3⟩
        = .json StatusOK ⟨1, [⟨1, "berlin@example.com", 52, 13, 0, 5⟩]⟩
      ∧ (([⟨1, "berlin@example.com", 52, 13, 0, 5⟩] : List NearbyUser).map
          NearbyUser.UserID).count 2 = 0
      ∧ GetNearbyUsers gridDist Faults.none threeUsersDb ⟨.value 52, .value 13, .value 3⟩
        = .json StatusOK threeUsersNearby
      ∧ (threeUsersNearby.users.map NearbyUser.UserID).count 2 = 1 := by
  decide!

/-! ## The constraints of the schema hold in every reachable state -/

theorem countUserRadar_eq_count (db : Database) (uid : Int) :
    countUserRadar db uid = (db.user_radar.map RadarRow.user_id).count uid := by
  unfold countUserRadar
  rw [← List.countP_eq_length_filter, List.count, List.countP_map]
  rfl

theorem constraints_empty : Database.empty.constraints := by
  decide

theorem userExists_iff (db : Database) (id : Int) :
    userExists db id = true ↔ ∃ u ∈ db.users, u.id = id := by
  simp [userExists]

theorem insertUser_constraints (now : Nat) (db : Database) (email : String)
    (hc : db.constraints) : (insertUser now db email).2.constraints := by
  obtain ⟨h1, h2, h3⟩ := hc
  unfold insertUser
  dsimp only
  split
  · rename_i hcond
    obtain ⟨-, hid, -⟩ := hcond
    refine ⟨?_, h2, ?_⟩
    · show ((db.users ++ [_]).map UserRow.id).Nodup
      rw [List.map_append, List.nodup_append]
      refine ⟨h1, by simp, ?_⟩
      intro a ha hb
      simp only [List.map_cons, List.map_nil, List.mem_singleton] at hb
      rw [List.mem_map] at ha
      obtain ⟨u, hu, rfl⟩ := ha
      have := List.all_eq_true.mp hid u hu
      simp [hb] at this
    · intro r hr
      obtain ⟨u, hu, hid⟩ := (userExists_iff db r.user_id).mp (h3 r hr)
      exact (userExists_iff _ _).mpr ⟨u, List.mem_append_left _ hu, hid⟩
  · exact ⟨h1, h2, h3⟩

theorem Create_constraints (isEmail : String → Bool) (f : Faults) (now : Nat)
    (db : Database) (body : CreateUserJSON) (hc : db.constraints) :
    (Create isEmail f now db body).2.constraints := by
  unfold Create
  cases hb : ShouldBindCreateUser isEmail body with
  | error e => exact hc
  | ok req =>
    dsimp only
    split
    · exact hc
    · have := insertUser_constraints now db req.Email hc
      split <;> rename_i heq <;> rw [heq] at this <;> exact this

theorem deleteUser_constraints (db : Database) (id : Int) (hc : db.constraints) :
    (deleteUser db id).2.constraints := by
  obtain ⟨h1, h2, h3⟩ := hc
  refine ⟨h1.sublist ((List.filter_sublist _).map _), h2.sublist ((List.filter_sublist _).map _),
    ?_⟩
  intro r hr
  simp only [deleteUser, List.mem_filter, bne_iff_ne, ne_eq] at hr
  obtain ⟨u, hu, hid⟩ := (userExists_iff db r.user_id).mp (h3 r hr.1)
  refine (userExists_iff _ _).mpr ⟨u, ?_, hid⟩
  simp only [deleteUser, List.mem_filter, bne_iff_ne, ne_eq]
  exact ⟨hu, by rw [hid]; exact hr.2⟩

theorem Delete_constraints (f : Faults) (db : Database) (id : Field Int)
    (hc : db.constraints) : (Delete f db id).2.constraints := by
  unfold Delete
  cases id with
  | absent => exact hc
  | malformed => exact hc
  | value n =>
    dsimp only
    split
    · exact hc
    · have := deleteUser_constraints db n hc
      split <;> exact this

theorem upsertUserRadar_constraints (now : Nat) (db : Database) (uid : Int) (x y : ℚ)
    (act : Bool) (hc : db.constraints) :
    (upsertUserRadar now db uid x y act).2.constraints := by
  obtain ⟨h1, h2, h3⟩ := hc
  unfold upsertUserRadar
  cases hf : db.user_radar.find? (fun r => r.user_id == uid) with
  | some old =>
    dsimp only
    have hmap : (db.user_radar.map
        (fun r => if r.user_id == uid then r.set x y act now else r)).map RadarRow.user_id
          = db.user_radar.map RadarRow.user_id := by
      rw [List.map_map]
      apply List.map_congr_left
      intro r _
      simp only [Function.comp]
      split <;> rfl
    refine ⟨h1, ?_, ?_⟩
    · show ((db.user_radar.map _).map RadarRow.user_id).Nodup
      rw [hmap]
      exact h2
    · intro r hr
      simp only [List.mem_map] at hr
      obtain ⟨r0, hr0, rfl⟩ := hr
      have := h3 r0 hr0
      split <;> exact this
  | none =>
    dsimp only
    split
    · rename_i hcond
      refine ⟨h1, ?_, ?_⟩
      · show ((db.user_radar ++ [_]).map RadarRow.user_id).Nodup
        rw [List.map_append, List.nodup_append]
        refine ⟨h2, by simp, ?_⟩
        intro a ha hb
        simp only [List.map_cons, List.map_nil, List.mem_singleton] at hb
        rw [List.mem_map] at ha
        obtain ⟨r, hr, rfl⟩ := ha
        have := List.find?_eq_none.mp hf r hr
        simp [hb] at this
      · intro r hr
        simp only [List.mem_append, List.mem_singleton] at hr
        rcases hr with hr | rfl
        · exact h3 r hr
        · exact hcond.1
    · exact ⟨h1, h2, h3⟩

theorem UpdateLocation_constraints (f : Faults) (now : Nat) (db : Database)
    (body : UpdateLocationJSON) (hc : db.constraints) :
    (UpdateLocation f now db body).2.constraints := by
  unfold UpdateLocation
  cases hb : ShouldBindJSON body with
  | error e => exact hc
  | ok req =>
    dsimp only
    split
    · exact hc
    split
    · exact hc
    split
    · exact hc
    · have := upsertUserRadar_constraints now db req.UserID req.Longitude req.Latitude
        (match req.IsActive with
          | some b => b
          | Option.none => true) hc
      split <;> rename_i heq <;> rw [heq] at this <;> exact this

theorem step_constraints (isEmail : String → Bool) (db : Database) (c : Faults × Request)
    (hc : db.constraints) : (step isEmail db c).constraints := by
  unfold step
  split
  · exact Create_constraints _ _ _ _ _ hc
  · exact Delete_constraints _ _ _ hc
  · exact UpdateLocation_constraints _ _ _ _ hc
  · exact hc

theorem run_constraints (isEmail : String → Bool) (cs : List (Faults × Request)) :
    ∀ db : Database, db.constraints → (run isEmail db cs).constraints := by
  induction cs with
  | nil => intro db hc; exact hc
  | cons c cs ih =>
    intro db hc
    exact ih _ (step_constraints isEmail db c hc)

/-! ## One record for each user -/

/-- After a successful `UpdateLocation` the user of the request has exactly one record. -/
theorem UpdateLocation_ok_count (f : Faults) (now : Nat) (db : Database)
    (body : UpdateLocationJSON) (uid : Int) (hc : db.constraints)
    (hu : body.user_id = .value uid)
    (hcode : (UpdateLocation f now db body).1.code = StatusOK) :
    countUserRadar (UpdateLocation f now db body).2 uid = 1 := by
  have hc1 := UpdateLocation_constraints f now db body hc
  cases hr : (UpdateLocation f now db body).1 with
  | error c e =>
    rw [hr] at hcode
    have := UpdateLocation_error_code f now db body c e hr
    simp only [Response.code] at hcode
    rw [hcode] at this
    exact absurd this (by decide)
  | json c radar =>
    obtain ⟨req, row, hb, -, -, hup⟩ := UpdateLocation_json f now db
      (UpdateLocation f now db body).2 body c radar (Prod.ext hr rfl)
    obtain ⟨hid, -, -, -, hmem, -, -⟩ := upsertUserRadar_some _ _ _ _ _ _ _ _ hup
    have huid : req.UserID = uid := by
      have := ((ShouldBindJSON_eq_ok body req).mp hb).1
      rw [hu] at this
      simp only [Field.decode, Option.some.injEq] at this
      exact this.symm
    rw [countUserRadar_eq_count]
    apply List.count_eq_one_of_mem hc1.2.1
    rw [← huid, ← hid]
    exact List.mem_map_of_mem _ hmem

theorem updateLocations_constraints (calls : List UpdateCall) :
    ∀ db : Database, db.constraints → (updateLocations db calls).2.constraints := by
  induction calls with
  | nil => intro db hc; exact hc
  | cons c cs ih =>
    intro db hc
    exact ih _ (UpdateLocation_constraints c.faults c.now db c.body hc)

/-- After one or more successful `UpdateLocation` calls for one user, that user has
exactly one record. -/
theorem updateLocations_count (uid : Int) (calls : List UpdateCall) :
    ∀ db : Database, db.constraints → calls ≠ [] →
      (∀ c ∈ calls, c.body.user_id = .value uid) →
      (∀ r ∈ (updateLocations db calls).1, r.code = StatusOK) →
      countUserRadar (updateLocations db calls).2 uid = 1 := by
  induction calls with
  | nil => intro db _ hne; exact absurd rfl hne
  | cons c cs ih =>
    intro db hc _ hall hok
    have hc1 := UpdateLocation_constraints c.faults c.now db c.body hc
    by_cases hcs : cs = []
    · subst hcs
      have h0 := hok (UpdateLocation c.faults c.now db c.body).1 (by simp [updateLocations])
      exact UpdateLocation_ok_count c.faults c.now db c.body uid hc
        (hall c (List.mem_cons_self _ _)) h0
    · exact ih _ hc1 hcs (fun c1 h1 => hall c1 (List.mem_cons_of_mem _ h1))
        (fun r hr => hok r (by simp only [updateLocations]; exact List.mem_cons_of_mem _ hr))

/-- C3: in every state reachable from the empty database by requests to `Create`,
`Delete`, `UpdateLocation` and `GetNearbyUsers`, whatever their outcome, no user has more
than one location record; and after one or more `UpdateLocation` calls for one user that
all succeed, with the same or with different coordinates, that user has exactly one. -/
theorem single_record_invariant (isEmail : String → Bool) (cs : List (Faults × Request)) :
    (∀ uid, countUserRadar (run isEmail Database.empty cs) uid ≤ 1)
      ∧ ∀ (uid : Int) (calls : List UpdateCall), calls ≠ [] →
          (∀ c ∈ calls, c.body.user_id = .value uid) →
          (∀ r ∈ (updateLocations (run isEmail Database.empty cs) calls).1,
            r.code = StatusOK) →
          countUserRadar (updateLocations (run isEmail Database.empty cs) calls).2 uid
            = 1 := by
  have hc := run_constraints isEmail cs Database.empty constraints_empty
  constructor
  · intro uid
    rw [countUserRadar_eq_count]
    exact List.nodup_iff_count_le_one.mp hc.2.1 uid
  · intro uid calls hne hall hok
    exact updateLocations_count uid calls _ hc hne hall hok

theorem single_record_invariant_witness :
    countUserRadar
      (updateLocations
        (run (fun _ => true) Database.empty
          [(Faults.none, .createUser 1 ⟨.value "berlin@example.com"⟩)]) twoReports).2 1
      = 1 :=
  (single_record_invariant (fun _ => true)
    [(Faults.none, .createUser 1 ⟨.value "berlin@example.com"⟩)]).2 1 twoReports
    (List.cons_ne_nil _ _)
    (by intro c hc
        simp only [twoReports, List.mem_cons, List.mem_singleton, List.not_mem_nil,
          or_false] at hc
        rcases hc with rfl | rfl <;> rfl)
    (by decide!)

/-! ## Storage errors -/

/-- A failure of the existence query or of the upsert of `UpdateLocation` is answered
with 500, the first without a write. -/
theorem UpdateLocation_storage_error (f : Faults) (now : Nat) (db : Database)
    (body : UpdateLocationJSON) (req : UpdateLocationRequest)
    (hb : ShouldBindJSON body = .ok req) :
    (f.verifyUser = true →
        UpdateLocation f now db body
          = (.error StatusInternalServerError (.message "failed to verify user"), db))
      ∧ (f.verifyUser = false → userExists db req.UserID = true → f.upsert = true →
        UpdateLocation f now db body
          = (.error StatusInternalServerError (.message "failed to update location"), db)) := by
  unfold UpdateLocation
  rw [hb]
  constructor
  · intro h
    simp [h]
  · intro h1 h2 h3
    simp [h1, h2, h3]

/-- A failure of the query of `GetNearbyUsers` is answered with 500. -/
theorem GetNearbyUsers_query_error (dist : Point → Point → ℚ) (f : Faults) (db : Database)
    (q : NearbyUsersQuery) (req : NearbyUsersRequest) (hb : ShouldBindQuery q = .ok req)
    (hq : f.query = true) :
    GetNearbyUsers dist f db q
      = .error StatusInternalServerError (.message "failed to fetch nearby users") := by
  unfold GetNearbyUsers
  rw [hb]
  simp [hq]

/-- A failure of `rows.Scan` on a row that the loop reaches is answered with 500. -/
theorem scanRows_scan_error (f : Faults) (k : Nat) (hs : f.scanAt = some k)
    (hn : f.nextAt = Option.none) (rows : List NearbyUser) :
    ∀ (i : Nat) (acc : List NearbyUser), i ≤ k → k < i + rows.length →
      scanRows f i rows acc
        = .error StatusInternalServerError (.message "failed to scan nearby user") := by
  induction rows with
  | nil => intro i acc h1 h2; simp at h2; omega
  | cons row rest ih =>
    intro i acc h1 h2
    unfold scanRows
    rw [hn, hs]
    by_cases hik : k = i
    · subst hik
      simp
    · have hne : ¬ (some k = some i) := by simpa using hik
      rw [if_neg (by simp), if_neg hne]
      apply ih
      · omega
      · simp only [List.length_cons] at h2
        omega

/-- C11 (the code at the failing input): when `rows.Next` stops on an error after the
first of the two rows of the result, `GetNearbyUsers` answers 200 with count 1 and the
first row only, where the same query on a working storage layer gives both rows; a
failure of `rows.Scan` on the second row of the same result is answered with 500. -/
theorem GetNearbyUsers_rows_error_swallowed :
    GetNearbyUsers gridDist rowsErrorAfterFirst threeUsersDb ⟨.value 52, .value 13, .value 3⟩
        = .json StatusOK ⟨1, [⟨1, "berlin@example.com", 52, 13, 0, 5⟩]⟩
      ∧ GetNearbyUsers gridDist Faults.none threeUsersDb ⟨.value 52, .value 13, .value 3⟩
        = .json StatusOK
            ⟨2, [⟨1, "berlin@example.com", 52, 13, 0, 5⟩,
              ⟨2, "hamburg@example.com", 55, 13, 3, 4⟩]⟩
      ∧ GetNearbyUsers gridDist scanErrorOnSecond threeUsersDb ⟨.value 52, .value 13, .value 3⟩
        = .error StatusInternalServerError (.message "failed to scan nearby user") := by
  decide!

/-! ## The count of the answer -/

/-- C12: in every successful `GetNearbyUsers` answer `count` is the number of entries of
`users`; and when no active record of the database is within the radius of the centre,
`users` is the empty list and `count` is 0. -/
theorem GetNearbyUsers_count (dist : Point → Point → ℚ) (f : Faults) (db : Database)
    (q : NearbyUsersQuery) (code : Nat) (resp : NearbyUsersResponse)
    (h : GetNearbyUsers dist f db q = .json code resp) :
    code = StatusOK ∧ resp.count = resp.users.length
      ∧ ∃ lat lon radius, q = ⟨.value lat, .value lon, .value radius⟩
        ∧ ((∀ r ∈ db.user_radar,
              ¬ (r.is_active = true
                ∧ dist r.location (ST_MakePoint lon lat) / 1000 ≤ radius)) →
            resp.users = [] ∧ resp.count = 0) := by
  obtain ⟨req, hb, hcode, hcount, ⟨k, hk⟩, -⟩ := GetNearbyUsers_json dist f db q code resp h
  refine ⟨hcode, hcount, req.Latitude, req.Longitude, req.Radius,
    ShouldBindQuery_ok_query q req hb, ?_⟩
  intro hfar
  have hnil : nearbyUsersQuery dist db req.Longitude req.Latitude req.Radius = [] := by
    rw [List.eq_nil_iff_forall_not_mem]
    intro e he
    obtain ⟨ur, hur, -, -, -, hact, hd, -⟩ := (mem_nearbyUsersQuery dist db _ _ _ e).mp he
    rw [← div_le_iff₀ (by norm_num)] at hd
    exact hfar ur hur ⟨hact, hd⟩
  have hus : resp.users = [] := by rw [hk, hnil]; simp
  exact ⟨hus, by rw [hcount, hus]; rfl⟩

theorem GetNearbyUsers_count_witness :
    GetNearbyUsers gridDist Faults.none farUserDb ⟨.value 52, .value 13, .value 10⟩
        = .json StatusOK ⟨0, []⟩
      ∧ (0 : Nat) = ([] : List NearbyUser).length :=
  ⟨by decide!,
    (GetNearbyUsers_count gridDist Faults.none farUserDb ⟨.value 52, .value 13, .value 10⟩
      StatusOK ⟨0, []⟩ (by decide!)).2.1⟩

/-! ## Location records and the users they belong to -/

theorem upsertUserRadar_users (now : Nat) (db : Database) (uid : Int) (x y : ℚ) (act : Bool) :
    (upsertUserRadar now db uid x y act).2.users = db.users
      ∧ (upsertUserRadar now db uid x y act).2.users_id_seq = db.users_id_seq := by
  unfold upsertUserRadar
  cases hf : db.user_radar.find? (fun r => r.user_id == uid) with
  | some old => exact ⟨rfl, rfl⟩
  | none =>
    dsimp only
    split <;> exact ⟨rfl, rfl⟩

/-- The handler `UpdateLocation` does not write the `users` table. -/
theorem UpdateLocation_users (f : Faults) (now : Nat) (db : Database)
    (body : UpdateLocationJSON) :
    (UpdateLocation f now db body).2.users = db.users
      ∧ (UpdateLocation f now db body).2.users_id_seq = db.users_id_seq := by
  unfold UpdateLocation
  cases hb : ShouldBindJSON body with
  | error e => exact ⟨rfl, rfl⟩
  | ok req =>
    dsimp only
    split
    · exact ⟨rfl, rfl⟩
    split
    · exact ⟨rfl, rfl⟩
    split
    · exact ⟨rfl, rfl⟩
    · have := upsertUserRadar_users now db req.UserID req.Longitude req.Latitude
        (match req.IsActive with
          | some b => b
          | Option.none => true)
      split <;> rename_i heq <;> rw [heq] at this <;> exact this

/-- A successful `UpdateLocation` has found the user of the request in `users`. -/
theorem UpdateLocation_json_userExists (f : Faults) (now : Nat) (db db1 : Database)
    (body : UpdateLocationJSON) (code : Nat) (radar : UserRadar)
    (h : UpdateLocation f now db body = (.json code radar, db1)) :
    userExists db radar.UserID = true := by
  obtain ⟨req, row, hb, -, hradar, hup⟩ := UpdateLocation_json f now db db1 body code radar h
  have hid : radar.UserID = req.UserID := by
    rw [hradar]
    exact (upsertUserRadar_some _ _ _ _ _ _ _ _ hup).1
  rw [hid]
  unfold UpdateLocation at h
  rw [hb] at h
  dsimp only at h
  split at h
  · simp at h
  split at h
  · simp at h
  · rename_i hex
    simpa using hex

/-- The state after `Create` is the state before it or the state after the insert. -/
theorem Create_state (isEmail : String → Bool) (f : Faults) (now : Nat) (db : Database)
    (body : CreateUserJSON) :
    (Create isEmail f now db body).2 = db
      ∨ ∃ email, (Create isEmail f now db body).2 = (insertUser now db email).2 := by
  unfold Create
  cases hb : ShouldBindCreateUser isEmail body with
  | error e => exact Or.inl rfl
  | ok req =>
    dsimp only
    split
    · exact Or.inl rfl
    · refine Or.inr ⟨req.Email, ?_⟩
      split <;> rename_i heq <;> rw [heq]

/-- The state after `Delete` is the state before it or the state after the delete
statement. -/
theorem Delete_state (f : Faults) (db : Database) (id : Field Int) :
    (Delete f db id).2 = db ∨ ∃ n, id = .value n ∧ (Delete f db id).2 = (deleteUser db n).2 := by
  unfold Delete
  cases id with
  | absent => exact Or.inl rfl
  | malformed => exact Or.inl rfl
  | value n =>
    dsimp only
    split
    · exact Or.inl rfl
    · refine Or.inr ⟨n, rfl, ?_⟩
      split <;> rfl

/-- The insert gives out the next value of the sequence and adds at most the row with
that id. -/
theorem insertUser_users (now : Nat) (db : Database) (email : String) :
    (insertUser now db email).2.users_id_seq = db.users_id_seq + 1
      ∧ ((insertUser now db email).2.users = db.users
        ∨ (insertUser now db email).2.users
            = db.users ++ [⟨(db.users_id_seq : Int) + 1, email, now, now⟩]) := by
  unfold insertUser
  dsimp only
  split
  · exact ⟨rfl, Or.inr rfl⟩
  · exact ⟨rfl, Or.inl rfl⟩

theorem step_idsIssued (isEmail : String → Bool) (db : Database) (c : Faults × Request)
    (hi : db.idsIssued) : (step isEmail db c).idsIssued := by
  obtain ⟨f, r⟩ := c
  cases r with
  | createUser now body =>
    show (Create isEmail f now db body).2.idsIssued
    rcases Create_state isEmail f now db body with h | ⟨email, h⟩
    · rw [h]; exact hi
    · rw [h]
      obtain ⟨hseq, hus⟩ := insertUser_users now db email
      intro u hu
      rw [hseq]
      push_cast
      rcases hus with hus | hus
      · rw [hus] at hu
        have := hi u hu
        omega
      · rw [hus] at hu
        simp only [List.mem_append, List.mem_singleton] at hu
        rcases hu with hu | rfl
        · have := hi u hu
          omega
        · exact le_refl _
  | deleteUser id =>
    show (Delete f db id).2.idsIssued
    rcases Delete_state f db id with h | ⟨n, -, h⟩
    · rw [h]; exact hi
    · rw [h]
      intro u hu
      simp only [deleteUser, List.mem_filter] at hu
      exact hi u hu.1
  | updateLocation now body =>
    show (UpdateLocation f now db body).2.idsIssued
    obtain ⟨h1, h2⟩ := UpdateLocation_users f now db body
    intro u hu
    rw [h1] at hu
    rw [h2]
    exact hi u hu
  | getNearbyUsers q => exact hi

theorem run_idsIssued (isEmail : String → Bool) (cs : List (Faults × Request)) :
    ∀ db : Database, db.idsIssued → (run isEmail db cs).idsIssued := by
  induction cs with
  | nil => intro db hi; exact hi
  | cons c cs ih =>
    intro db hi
    exact ih _ (step_idsIssued isEmail db c hi)

/-- An id that the sequence has given out and that is not in `users` stays out of
`users`: the sequence never gives it out again. -/
theorem step_absent (isEmail : String → Bool) (db : Database) (c : Faults × Request)
    (id : Int) (ha : userExists db id = false) (hs : id ≤ (db.users_id_seq : Int)) :
    userExists (step isEmail db c) id = false
      ∧ id ≤ ((step isEmail db c).users_id_seq : Int) := by
  obtain ⟨f, r⟩ := c
  cases r with
  | createUser now body =>
    show userExists (Create isEmail f now db body).2 id = false
      ∧ id ≤ ((Create isEmail f now db body).2.users_id_seq : Int)
    rcases Create_state isEmail f now db body with h | ⟨email, h⟩
    · rw [h]; exact ⟨ha, hs⟩
    · rw [h]
      obtain ⟨hseq, hus⟩ := insertUser_users now db email
      refine ⟨?_, by rw [hseq]; push_cast; omega⟩
      rcases hus with hus | hus
      · unfold userExists
        rw [hus]
        exact ha
      · unfold userExists at ha ⊢
        rw [hus, List.any_append, ha]
        simp only [List.any_cons, List.any_nil, Bool.or_false, Bool.false_or,
          beq_eq_false_iff_ne, ne_eq]
        omega
  | deleteUser n =>
    show userExists (Delete f db n).2 id = false
      ∧ id ≤ ((Delete f db n).2.users_id_seq : Int)
    rcases Delete_state f db n with h | ⟨m, -, h⟩
    · rw [h]; exact ⟨ha, hs⟩
    · rw [h]
      refine ⟨?_, hs⟩
      rw [Bool.eq_false_iff] at ha ⊢
      intro hex
      apply ha
      obtain ⟨u, hu, hid⟩ := (userExists_iff _ _).mp hex
      simp only [deleteUser, List.mem_filter] at hu
      exact (userExists_iff _ _).mpr ⟨u, hu.1, hid⟩
  | updateLocation now body =>
    show userExists (UpdateLocation f now db body).2 id = false
      ∧ id ≤ ((UpdateLocation f now db body).2.users_id_seq : Int)
    obtain ⟨h1, h2⟩ := UpdateLocation_users f now db body
    refine ⟨?_, by rw [h2]; exact hs⟩
    unfold userExists at ha ⊢
    rw [h1]
    exact ha
  | getNearbyUsers q => exact ⟨ha, hs⟩

theorem run_absent (isEmail : String → Bool) (cs : List (Faults × Request)) (id : Int) :
    ∀ db : Database, userExists db id = false → id ≤ (db.users_id_seq : Int) →
      userExists (run isEmail db cs) id = false := by
  induction cs with
  | nil => intro db ha _; exact ha
  | cons c cs ih =>
    intro db ha hs
    obtain ⟨h1, h2⟩ := step_absent isEmail db c id ha hs
    exact ih _ h1 h2

/-- No entry of a `GetNearbyUsers` answer has the id of a user that is not in `users`. -/
theorem GetNearbyUsers_absent_user (dist : Point → Point → ℚ) (f : Faults) (db : Database)
    (q : NearbyUsersQuery) (code : Nat) (resp : NearbyUsersResponse) (id : Int)
    (ha : userExists db id = false) (h : GetNearbyUsers dist f db q = .json code resp) :
    ∀ e ∈ resp.users, e.UserID ≠ id := by
  obtain ⟨req, -, -, -, ⟨k, hk⟩, -⟩ := GetNearbyUsers_json dist f db q code resp h
  intro e he heq
  rw [hk] at he
  obtain ⟨ur, -, u, hu, hj, -, -, rfl⟩ :=
    (mem_nearbyUsersQuery dist db _ _ _ e).mp (List.mem_of_mem_take he)
  have : userExists db id = true := (userExists_iff db id).mpr ⟨u, hu, by rw [← hj]; exact heq⟩
  rw [ha] at this
  cases this

/-- A successful `Delete` has run the delete statement and has deleted a row of
`users`. -/
theorem Delete_json (f : Faults) (db db1 : Database) (id : Int) (code : Nat) (msg : String)
    (h : Delete f db (.value id) = (.json code msg, db1)) :
    db1 = (deleteUser db id).2 ∧ userExists db id = true := by
  unfold Delete at h
  dsimp only at h
  split at h
  · simp at h
  · split at h
    · simp at h
    · rename_i hrows
      simp only [Prod.mk.injEq] at h
      refine ⟨h.2.symm, ?_⟩
      simp only [deleteUser] at hrows
      have hpos : 0 < (db.users.filter (fun u => u.id == id)).length := Nat.pos_of_ne_zero hrows
      obtain ⟨u, hu⟩ := List.exists_mem_of_length_pos hpos
      simp only [List.mem_filter, beq_iff_eq] at hu
      exact (userExists_iff db id).mpr ⟨u, hu.1, hu.2⟩

theorem idsIssued_empty : Database.empty.idsIssued := by
  intro u hu
  cases hu

/-- The delete statement removes the user and, by the cascade, the records of that user
and no other record. -/
theorem deleteUser_effect (db : Database) (id : Int) :
    userExists (deleteUser db id).2 id = false
      ∧ (deleteUser db id).2.users_id_seq = db.users_id_seq
      ∧ ∀ r, r ∈ (deleteUser db id).2.user_radar ↔ r ∈ db.user_radar ∧ r.user_id ≠ id := by
  refine ⟨?_, rfl, ?_⟩
  · rw [Bool.eq_false_iff]
    intro hex
    obtain ⟨u, hu, hid⟩ := (userExists_iff _ _).mp hex
    simp only [deleteUser, List.mem_filter, bne_iff_ne, ne_eq] at hu
    exact hu.2 hid
  · intro r
    simp only [deleteUser, List.mem_filter, bne_iff_ne, ne_eq]

/-- C13: in every state reachable from the empty database by requests to `Create`,
`Delete`, `UpdateLocation` and `GetNearbyUsers`, every location record belongs to a user
in `users`; a successful `UpdateLocation` there is for a user in `users` and leaves
`users` as it is; and a successful `Delete` there removes the user, removes exactly the
records of that user, and no `GetNearbyUsers` answer after any further requests has an
entry of that user. -/
theorem location_records_have_users (isEmail : String → Bool) (cs : List (Faults × Request)) :
    (∀ r ∈ (run isEmail Database.empty cs).user_radar,
        userExists (run isEmail Database.empty cs) r.user_id = true)
      ∧ (∀ (f : Faults) (now : Nat) (body : UpdateLocationJSON) (code : Nat)
          (radar : UserRadar) (db1 : Database),
          UpdateLocation f now (run isEmail Database.empty cs) body = (.json code radar, db1) →
            userExists (run isEmail Database.empty cs) radar.UserID = true
              ∧ db1.users = (run isEmail Database.empty cs).users
              ∧ ∀ r ∈ db1.user_radar, userExists db1 r.user_id = true)
      ∧ (∀ (f : Faults) (id : Int) (code : Nat) (msg : String) (db1 : Database),
          Delete f (run isEmail Database.empty cs) (.value id) = (.json code msg, db1) →
            userExists db1 id = false
              ∧ (∀ r, r ∈ db1.user_radar ↔
                  r ∈ (run isEmail Database.empty cs).user_radar ∧ r.user_id ≠ id)
              ∧ ∀ (later : List (Faults × Request)) (dist : Point → Point → ℚ) (f2 : Faults)
                  (q : NearbyUsersQuery) (code2 : Nat) (resp : NearbyUsersResponse),
                  GetNearbyUsers dist f2 (run isEmail db1 later) q = .json code2 resp →
                    ∀ e ∈ resp.users, e.UserID ≠ id) := by
  have hc := run_constraints isEmail cs Database.empty constraints_empty
  have hi := run_idsIssued isEmail cs Database.empty idsIssued_empty
  refine ⟨hc.2.2, ?_, ?_⟩
  · intro f now body code radar db1 h
    have hu := UpdateLocation_users f now (run isEmail Database.empty cs) body
    have hc1 := UpdateLocation_constraints f now (run isEmail Database.empty cs) body hc
    rw [h] at hu hc1
    exact ⟨UpdateLocation_json_userExists f now _ db1 body code radar h, hu.1, hc1.2.2⟩
  · intro f id code msg db1 h
    obtain ⟨hdb, hex⟩ := Delete_json f _ db1 id code msg h
    obtain ⟨hgone, hseq, hrec⟩ := deleteUser_effect (run isEmail Database.empty cs) id
    rw [← hdb] at hgone hseq hrec
    refine ⟨hgone, hrec, ?_⟩
    intro later dist f2 q code2 resp hq
    obtain ⟨u, hu, hid⟩ := (userExists_iff _ _).mp hex
    have hle : id ≤ (db1.users_id_seq : Int) := by
      rw [hseq, ← hid]
      exact hi u hu
    exact GetNearbyUsers_absent_user dist f2 _ q code2 resp id
      (run_absent isEmail later id db1 hgone hle) hq

theorem location_records_have_users_witness :
    GetNearbyUsers gridDist Faults.none
        (run (fun _ => true)
          (Delete Faults.none (run (fun _ => true) Database.empty twoUsersRequests)
            (.value 1)).2 laterRequests)
        ⟨.value 52, .value 13, .value 10⟩
        = .json StatusOK ⟨1, [⟨2, "hamburg@example.com", 55, 13, 3, 4⟩]⟩
      ∧ NearbyUser.UserID ⟨2, "hamburg@example.com", 55, 13, 3, 4⟩ ≠ 1 :=
  ⟨by decide!,
    ((location_records_have_users (fun _ => true) twoUsersRequests).2.2 Faults.none 1
      StatusOK "user deleted successfully"
      (Delete Faults.none (run (fun _ => true) Database.empty twoUsersRequests) (.value 1)).2
      (Prod.ext (by decide!) rfl)).2.2 laterRequests gridDist Faults.none
      ⟨.value 52, .value 13, .value 10⟩ StatusOK
      ⟨1, [⟨2, "hamburg@example.com", 55, 13, 3, 4⟩]⟩ (by decide!) _ (List.Mem.head _)⟩

end ApiBackend
